import Mathlib

set_option maxRecDepth 8000

/-
Shallow embedding of src/main.py (tautulli-export-watched-per-user).

Modelling conventions:
* Python floats are modeled as rationals (ℚ).
* A heterogeneous JSON field value is modeled by the two attributes the code
  inspects: its Python truthiness and the result of float(value)
  (none when float() would raise).  A field that is absent, or present with
  value null, is Option.none at the field level (dict.get returns None in
  both cases, and None is falsy).
* String-valued fields (titles, rating keys, formatted timestamps) are
  modeled as Option String; the empty string is the falsy case.
* Numeric epoch timestamps are formatted by _ts_readable through
  time.strftime into a zero-padded "YYYY-MM-DD HH:MM:SS" string; the model
  carries the already-formatted string, since everything downstream only
  compares these strings lexicographically.
* The Python dicts `series` and `movies` are finite maps keyed by string;
  they are modeled as functions String → Option Bucket.  The final
  `out.sort(...)` only orders the emitted rows; none of the verified claims
  concern row order, so aggregation results are exposed per key.
-/

structure PyVal where
  truthy : Bool
  toFloat : Option ℚ
deriving DecidableEq

/-- One raw history row (PlayEvent), with exactly the fields src/main.py reads. -/
structure Row where
  percent_complete : Option PyVal := none
  view_offset : Option PyVal := none
  duration : Option PyVal := none
  media_duration : Option PyVal := none
  rating_key : Option String := none
  parent_rating_key : Option String := none
  grandparent_rating_key : Option String := none
  title : Option String := none
  full_title : Option String := none
  grandparent_title : Option String := none
  year : Option String := none
  date : Option String := none
  stopped : Option String := none
  started : Option String := none
  last_played : Option String := none
deriving DecidableEq

/-- `str(x or "")` for a string-valued field: absent/falsy collapses to `""`. -/
def strOr (o : Option String) : String := o.getD ""

/-- `a or b or ... or dflt` over string-valued fields (Python `or` skips falsy values). -/
def firstNonEmpty : List (Option String) → String → String
  | [], dflt => dflt
  | o :: rest, dflt =>
    match o with
    | some s => if s = "" then firstNonEmpty rest dflt else s
    | none => firstNonEmpty rest dflt

/-- `float(x)` applied to an optional field value: `float(None)` raises, hence `none`. -/
def floatOfVal : Option PyVal → Option ℚ
  | none => none
  | some v => v.toFloat

/-- `r.get("duration") or r.get("media_duration")` (line 102). -/
def durationField (r : Row) : Option PyVal :=
  match r.duration with
  | some v => if v.truthy then some v else r.media_duration
  | none => r.media_duration

/-- Python's builtin `max(a, b)` on two floats. -/
def pymax (a b : ℚ) : ℚ := if a < b then b else a

/-- Python's builtin `min(a, b)` on two floats. -/
def pymin (a b : ℚ) : ℚ := if b < a then b else a

/-- The view_offset/duration branch of `_percent_from_row` (lines 101-114):
float both fields (any failure falls to `return None`), require duration > 0,
apply the ms→s heuristic, and clamp the ratio to [0,100]. -/
def derivedPercent (r : Row) : Option ℚ :=
  match floatOfVal r.view_offset, floatOfVal (durationField r) with
  | some off, some dur =>
    if 0 < dur then
      let off1 := if dur * 5 < off then off / 1000 else off
      let dur1 := if 100000 < dur then dur / 1000 else dur
      some (pymax 0 (pymin 100 (off1 / dur1 * 100)))
    else none
  | some _, none => none
  | none, _ => none

/-- `_percent_from_row` (lines 94-115): an explicit, parseable
`percent_complete` field wins; otherwise the derived branch. -/
def percent_from_row (r : Row) : Option ℚ :=
  match r.percent_complete with
  | some v =>
    match v.toFloat with
    | some q => some q
    | none => derivedPercent r
  | none => derivedPercent r

/-- The explicit-field parse on its own: `float(r.get("percent_complete"))` when present. -/
def explicitPercent (r : Row) : Option ℚ :=
  r.percent_complete.bind PyVal.toFloat

/-- `pct is None or pct >= watched_threshold` (lines 171/260). -/
def isWatched (threshold : ℚ) : Option ℚ → Bool
  | none => true
  | some p => decide (threshold ≤ p)

/-- `_ts_readable(r.get("date") or r.get("stopped") or r.get("started") or r.get("last_played"))`
(line 169): the first truthy timestamp, already formatted, else `""`. -/
def rowTs (r : Row) : String :=
  firstNonEmpty [r.date, r.stopped, r.started, r.last_played] ""

/-- Python's `round(x, 2)` (banker's rounding), on the rational model. -/
def roundHalfEven (x : ℚ) : ℤ :=
  let f := Int.floor x
  if x - f < 1 / 2 then f
  else if 1 / 2 < x - f then f + 1
  else if f % 2 = 0 then f else f + 1

def pyRound2 (x : ℚ) : ℚ := (roundHalfEven (x * 100) : ℚ) / 100

/- ------------------------------------------------------------------ -/
/- Series aggregation (aggregate_series, lines 160-223)                -/
/- ------------------------------------------------------------------ -/

/-- One value of the `series` dict during aggregation: the mutable bucket. -/
structure SeriesBucket where
  show_title : String
  show_rating_key : String
  avgEpisodePercent : ℚ
  first_watched : String
  last_watched : String
  playsCount : ℕ
  seenWatched : Finset String
  seenPartial : Finset String
deriving DecidableEq

/-- `r.get("grandparent_title") or r.get("full_title") or r.get("title") or "Unbekannt"`. -/
def seriesTitle (r : Row) : String :=
  firstNonEmpty [r.grandparent_title, r.full_title, r.title] "Unbekannt"

/-- `str(r.get("rating_key") or "")` — the episode identifier. -/
def epKeyOf (r : Row) : String := strOr r.rating_key

/-- `show_key or show_title` — the dict key of the bucket (line 173). -/
def seriesKey (r : Row) : String :=
  if strOr r.grandparent_rating_key = "" then seriesTitle r
  else strOr r.grandparent_rating_key

/-- The bucket default passed to `setdefault` (lines 173-184). -/
def initBucket (r : Row) : SeriesBucket :=
  { show_title := seriesTitle r
    show_rating_key := strOr r.grandparent_rating_key
    avgEpisodePercent := 0
    first_watched := rowTs r
    last_watched := rowTs r
    playsCount := 0
    seenWatched := ∅
    seenPartial := ∅ }

/-- Lines 186-191 (`# Durchschnitt (über Plays)`): the running-average update
uses `_plays_count`, which is then incremented for every event. -/
def avgStage (r : Row) (b : SeriesBucket) : SeriesBucket :=
  let b1 :=
    match percent_from_row r with
    | some p =>
      { b with avgEpisodePercent :=
          (b.avgEpisodePercent * b.playsCount + p) / (b.playsCount + 1) }
    | none => b
  { b1 with playsCount := b1.playsCount + 1 }

/-- Lines 193-200 (`# Unique Episoden (nach Schwelle)`). -/
def setStage (threshold : ℚ) (r : Row) (b : SeriesBucket) : SeriesBucket :=
  if epKeyOf r = "" then b
  else if isWatched threshold (percent_from_row r)
  then { b with seenWatched := insert (epKeyOf r) b.seenWatched }
  else if epKeyOf r ∈ b.seenWatched then b
  else { b with seenPartial := insert (epKeyOf r) b.seenPartial }

/-- Lines 202-207 (`# Zeit`). -/
def tsStage (r : Row) (b : SeriesBucket) : SeriesBucket :=
  if rowTs r = "" then b
  else
    let b4 :=
      if b.first_watched = "" ∨ rowTs r < b.first_watched
      then { b with first_watched := rowTs r } else b
    if b4.last_watched = "" ∨ b4.last_watched < rowTs r
    then { b4 with last_watched := rowTs r } else b4

/-- The per-event mutation of one bucket (lines 186-207), in source order:
running average, watched/partial episode sets, first/last timestamps. -/
def updateBucket (threshold : ℚ) (r : Row) (b0 : SeriesBucket) : SeriesBucket :=
  tsStage r (setStage threshold r (avgStage r b0))

/-- One iteration of the `for r in rows` loop: `setdefault` then mutation. -/
def seriesStep (threshold : ℚ) (m : String → Option SeriesBucket) (r : Row) :
    String → Option SeriesBucket :=
  fun k =>
    if k = seriesKey r
    then some (updateBucket threshold r ((m (seriesKey r)).getD (initBucket r)))
    else m k

def seriesFoldFrom (threshold : ℚ) (m : String → Option SeriesBucket) (rows : List Row) :
    String → Option SeriesBucket :=
  rows.foldl (seriesStep threshold) m

/-- The `series` dict after the whole event loop. -/
def seriesFold (threshold : ℚ) (rows : List Row) : String → Option SeriesBucket :=
  seriesFoldFrom threshold (fun _ => none) rows

/-- The finalized output row (lines 209-220); `episodes_partial` is spelled
`episodesPartial` here.  `percent_watched_show = ""` is modeled as `none`. -/
structure SeriesRow where
  show_title : String
  show_rating_key : String
  unique_episodes_watched : ℕ
  episodesPartial : ℕ
  avg_episode_percent : ℚ
  first_watched : String
  last_watched : String
  available_episodes : ℤ
  percent_watched_show : Option ℚ
deriving DecidableEq

/-- Finalization of one bucket (lines 211-220): collapse sets to counts,
round the average, initialize the availability placeholders. -/
def finalizeSeriesBucket (b : SeriesBucket) : SeriesRow :=
  { show_title := b.show_title
    show_rating_key := b.show_rating_key
    unique_episodes_watched := b.seenWatched.card
    episodesPartial := b.seenPartial.card
    avg_episode_percent := pyRound2 b.avgEpisodePercent
    first_watched := b.first_watched
    last_watched := b.last_watched
    available_episodes := 0
    percent_watched_show := none }

/-- `aggregate_series`, exposed per dict key (the final sort only orders rows). -/
def aggregate_series (threshold : ℚ) (rows : List Row) : String → Option SeriesRow :=
  fun k => (seriesFold threshold rows k).map finalizeSeriesBucket

/-- Watched-set of the bucket at key `k` (empty when the bucket does not exist). -/
def mapWatched (m : String → Option SeriesBucket) (k : String) : Finset String :=
  ((m k).map SeriesBucket.seenWatched).getD ∅

/-- Partial-set of the bucket at key `k` (empty when the bucket does not exist). -/
def mapPartial (m : String → Option SeriesBucket) (k : String) : Finset String :=
  ((m k).map SeriesBucket.seenPartial).getD ∅

/-- The per-row availability finalization inside `compute_available_after`
(lines 240-246): `avail` is the already-resolved count. -/
def applyAvailable (avail : ℤ) (row : SeriesRow) : SeriesRow :=
  { row with
    available_episodes := avail
    percent_watched_show :=
      if 0 < avail
      then some (pyRound2 ((row.unique_episodes_watched : ℚ) / (avail : ℚ) * 100))
      else none }

/- ------------------------------------------------------------------ -/
/- Movie aggregation (aggregate_movies, lines 252-287)                 -/
/- ------------------------------------------------------------------ -/

/-- One value of the `movies` dict; the finalized row has the same shape
(the code rounds fields of the same dict in place). -/
structure MovieBucket where
  movie_title : String
  year : String
  plays : ℕ
  max_percent : ℚ
  avg_percent : ℚ
  last_percent : Option ℚ
  completed_any : Bool
  first_watched : String
  last_watched : String
deriving DecidableEq

/-- `r.get("title") or r.get("full_title") or "Unbekannt"`. -/
def movieTitle (r : Row) : String :=
  firstNonEmpty [r.title, r.full_title] "Unbekannt"

/-- `r.get("year") or ""`. -/
def movieYear (r : Row) : String := strOr r.year

/-- `str(r.get("rating_key") or r.get("parent_rating_key") or "")`, with the
`f"{title} ({year})"` fallback used as dict key when empty (line 262). -/
def movieKey (r : Row) : String :=
  let k := firstNonEmpty [r.rating_key, r.parent_rating_key] ""
  if k = "" then movieTitle r ++ " (" ++ movieYear r ++ ")" else k

/-- The bucket default passed to `setdefault` (lines 262-266). -/
def initMovieBucket (r : Row) : MovieBucket :=
  { movie_title := movieTitle r
    year := movieYear r
    plays := 0
    max_percent := 0
    avg_percent := 0
    last_percent := none
    completed_any := false
    first_watched := rowTs r
    last_watched := rowTs r }

/-- The per-event mutation of one movie bucket (lines 267-278). -/
def updateMovieBucket (threshold : ℚ) (r : Row) (b0 : MovieBucket) : MovieBucket :=
  let pct := percent_from_row r
  let tsr := rowTs r
  let b1 := { b0 with plays := b0.plays + 1 }
  let b2 :=
    match pct with
    | some p =>
      { b1 with
        max_percent := pymax b1.max_percent p
        avg_percent := (b1.avg_percent * ((b1.plays : ℚ) - 1) + p) / (b1.plays : ℚ)
        last_percent := some p }
    | none => b1
  let b3 := if isWatched threshold pct then { b2 with completed_any := true } else b2
  if tsr = "" then b3
  else
    let b4 :=
      if b3.first_watched = "" ∨ tsr < b3.first_watched
      then { b3 with first_watched := tsr } else b3
    if b4.last_watched = "" ∨ b4.last_watched < tsr
    then { b4 with last_watched := tsr } else b4

def movieStep (threshold : ℚ) (m : String → Option MovieBucket) (r : Row) :
    String → Option MovieBucket :=
  fun k =>
    if k = movieKey r
    then some (updateMovieBucket threshold r ((m (movieKey r)).getD (initMovieBucket r)))
    else m k

def movieFoldFrom (threshold : ℚ) (m : String → Option MovieBucket) (rows : List Row) :
    String → Option MovieBucket :=
  rows.foldl (movieStep threshold) m

def movieFold (threshold : ℚ) (rows : List Row) : String → Option MovieBucket :=
  movieFoldFrom threshold (fun _ => none) rows

/-- Rounding pass over one finished movie bucket (lines 281-285). -/
def finalizeMovieBucket (b : MovieBucket) : MovieBucket :=
  { b with
    avg_percent := pyRound2 b.avg_percent
    last_percent := b.last_percent.map pyRound2
    max_percent := pyRound2 b.max_percent }

/-- `aggregate_movies`, exposed per dict key (the final sort only orders rows). -/
def aggregate_movies (threshold : ℚ) (rows : List Row) : String → Option MovieBucket :=
  fun k => (movieFold threshold rows k).map finalizeMovieBucket

/- ------------------------------------------------------------------ -/
/- Availability resolver (count_available_episodes, lines 118-157)     -/
/- ------------------------------------------------------------------ -/

/-- The `get_metadata` dict, restricted to the three count fields the code
reads.  `none` = key absent or null (skipped by `if k in md and md[k] is not
None`); `some none` = present but `int()` raises; `some (some n)` = `int` n. -/
structure ShowMetadata where
  leaf_count : Option (Option ℤ) := none
  leafCount : Option (Option ℤ) := none
  episode_count : Option (Option ℤ) := none
deriving DecidableEq

/-- One entry of the season list: `s.get("rating_key") or s.get("ratingKey")`
already resolved; a falsy key is `none`/`""` and is skipped by the loop. -/
structure Season where
  key : Option String := none
deriving DecidableEq

/-- The per-season `get_children_metadata` dict.  A non-dict (list) response
is represented by `children_count := none` and `children_list` holding its
length, which yields the same count as `len(eps or [])`.  In
`children_count`, `some none` stands for a present, truthy value on which
`int()` raises; falsy present values (which become 0 through `cnt or 0`)
are represented as `some (some 0)`. -/
structure SeasonChildren where
  children_count : Option (Option ℤ) := none
  children_list : Option ℕ := none
deriving DecidableEq

/-- `cnt = eps.get("children_count"); if cnt is None: cnt = len(children_list or []);
int(cnt or 0)` — error = the `int()` call raising. -/
def childrenCount (sc : SeasonChildren) : Except Unit ℤ :=
  match sc.children_count with
  | some (some n) => .ok n
  | some none => .error ()
  | none => .ok ((sc.children_list.getD 0 : ℕ) : ℤ)

/-- The network collaborator: results of the three API calls the resolver
makes.  `.error` = the call raised (Transport/API error). -/
structure AvailOracle where
  metadata : Except Unit ShowMetadata
  seasons : Except Unit (List Season)
  episodes : String → Except Unit SeasonChildren

/-- The fast path (lines 124-131): first present, non-null count field,
converted by `int()`.  Any failure (call raised, field missing, `int()`
raised) yields `none` and the code falls through to the fallback. -/
def fastCount (mdr : Except Unit ShowMetadata) : Option ℤ :=
  match mdr with
  | .error _ => none
  | .ok md =>
    match md.leaf_count with
    | some (some n) => some n
    | some none => none
    | none =>
      match md.leafCount with
      | some (some n) => some n
      | some none => none
      | none =>
        match md.episode_count with
        | some (some n) => some n
        | some none => none
        | none => none

/-- The fallback season loop (lines 142-154): seasons with a falsy key are
skipped; an error while handling a season returns the sum accumulated so far. -/
def seasonAdd (episodes : String → Except Unit SeasonChildren) :
    List Season → ℤ → ℤ
  | [], acc => acc
  | s :: rest, acc =>
    if strOr s.key = "" then seasonAdd episodes rest acc
    else
      match episodes (strOr s.key) with
      | .error _ => acc
      | .ok sc =>
        match childrenCount sc with
        | .error _ => acc
        | .ok n => seasonAdd episodes rest (acc + n)

/-- `count_available_episodes` (lines 118-157). -/
def count_available_episodes (ora : AvailOracle) : ℤ :=
  match fastCount ora.metadata with
  | some n => n
  | none =>
    match ora.seasons with
    | .error _ => 0
    | .ok ss => seasonAdd ora.episodes ss 0

/-- The contribution of one season, when the loop survives it: `none` both
for a skipped (falsy-key) season and for a season that aborts the loop. -/
def seasonCount (episodes : String → Except Unit SeasonChildren) (s : Season) :
    Option ℤ :=
  if strOr s.key = "" then none
  else
    match episodes (strOr s.key) with
    | .error _ => none
    | .ok sc =>
      match childrenCount sc with
      | .error _ => none
      | .ok n => some n

/-- A dict state already accounts for every event of `L`: each event's
episode key (when present) sits in the watched-set of its bucket if the
event is watched, and in the watched- or partial-set if it is not.  The
state reached after folding `L` has this property, and folding `L` again
from such a state leaves both sets unchanged. -/
def ClosedState (t : ℚ) (m : String → Option SeriesBucket) (L : List Row) : Prop :=
  ∀ r ∈ L, epKeyOf r ≠ "" →
    (isWatched t (percent_from_row r) = true →
      epKeyOf r ∈ mapWatched m (seriesKey r)) ∧
    (isWatched t (percent_from_row r) = false →
      epKeyOf r ∈ mapWatched m (seriesKey r) ∨
        epKeyOf r ∈ mapPartial m (seriesKey r))

/- ------------------------------------------------------------------ -/
/- Concrete rows used to exercise the definitions.                     -/
/- ------------------------------------------------------------------ -/

/-- A row whose explicit percent field parses to 150 (out of range) while its
position/duration pair would derive 10. -/
def rowExplicit150 : Row :=
  { percent_complete := some ⟨true, some 150⟩,
    view_offset := some ⟨true, some 10⟩,
    duration := some ⟨true, some 100⟩ }

/-- A row whose explicit percent parses to 42 while position/duration would derive 10. -/
def rowExplicit42 : Row :=
  { percent_complete := some ⟨true, some 42⟩,
    view_offset := some ⟨true, some 10⟩,
    duration := some ⟨true, some 100⟩ }

/-- A row with only a position/duration pair: 50 out of 100. -/
def rowDerived50 : Row :=
  { view_offset := some ⟨true, some 50⟩,
    duration := some ⟨true, some 100⟩ }

/-- A row with no usable completion fields at all. -/
def rowEmpty : Row := {}

/-- Episode A of show 1, played to 40% (below the default threshold). -/
def epA40 : Row :=
  { percent_complete := some ⟨true, some 40⟩,
    rating_key := some "A",
    grandparent_rating_key := some "1",
    grandparent_title := some "Show X" }

/-- Episode A of show 1, played to 95% (above the default threshold). -/
def epA95 : Row :=
  { percent_complete := some ⟨true, some 95⟩,
    rating_key := some "A",
    grandparent_rating_key := some "1",
    grandparent_title := some "Show X" }

/-- An event for show 1 with an absent percent (and no episode key). -/
def epAbsent : Row :=
  { grandparent_rating_key := some "1",
    grandparent_title := some "Show X" }

/-- An event for show 1 at 100% (and no episode key). -/
def ep100 : Row :=
  { percent_complete := some ⟨true, some 100⟩,
    grandparent_rating_key := some "1",
    grandparent_title := some "Show X" }

/-- An episode event with no rating_key but a percent and a timestamp. -/
def epNoKey : Row :=
  { percent_complete := some ⟨true, some 50⟩,
    grandparent_rating_key := some "1",
    grandparent_title := some "Show X",
    date := some "2024-01-02 03:04:05" }

/-- A movie event with an absent percent. -/
def movAbsent : Row :=
  { rating_key := some "m1",
    title := some "Movie M" }

/-- A second movie event with an absent percent (unparseable explicit field,
zero duration). -/
def movAbsent2 : Row :=
  { percent_complete := some ⟨true, none⟩,
    view_offset := some ⟨true, some 10⟩,
    duration := some ⟨false, some 0⟩,
    rating_key := some "m1",
    title := some "Movie M" }

/-- A series row as it leaves aggregate_series: 2 of an eventual 4 episodes watched. -/
def rowShow24 : SeriesRow :=
  { show_title := "Show X"
    show_rating_key := "1"
    unique_episodes_watched := 2
    episodesPartial := 0
    avg_episode_percent := 90
    first_watched := ""
    last_watched := ""
    available_episodes := 0
    percent_watched_show := none }

/-- An availability oracle: fast path errors, season s1 counts 5 episodes,
season s2's children call errors, season s3 would count 7. -/
def oracleErrAtS2 : AvailOracle :=
  { metadata := .error ()
    seasons := .ok [⟨some "s1"⟩, ⟨some "s2"⟩, ⟨some "s3"⟩]
    episodes := fun k =>
      if k = "s1" then .ok { children_count := some (some 5) }
      else if k = "s3" then .ok { children_count := some (some 7) }
      else .error () }

/- ------------------------------------------------------------------ -/
/- Theorems                                                            -/
/- ------------------------------------------------------------------ -/

theorem pymax_pymin_bounds (x : ℚ) : 0 ≤ pymax 0 (pymin 100 x) ∧ pymax 0 (pymin 100 x) ≤ 100 := by
  unfold pymax pymin
  split_ifs <;> constructor <;> linarith

theorem derivedPercent_bounds (r : Row) (q : ℚ) (h : derivedPercent r = some q) :
    0 ≤ q ∧ q ≤ 100 := by
  rcases hoff : floatOfVal r.view_offset with _ | off
  · simp [derivedPercent, hoff] at h
  rcases hdur : floatOfVal (durationField r) with _ | dur
  · simp [derivedPercent, hoff, hdur] at h
  by_cases hpos : 0 < dur
  · simp only [derivedPercent, hoff, hdur, hpos, if_true, Option.some.injEq] at h
    exact h ▸ pymax_pymin_bounds _
  · simp [derivedPercent, hoff, hdur, hpos] at h

theorem percent_from_row_of_explicit (r : Row) (v : PyVal) (q : ℚ)
    (h1 : r.percent_complete = some v) (h2 : v.toFloat = some q) :
    percent_from_row r = some q := by
  simp [percent_from_row, h1, h2]

theorem percent_from_row_of_no_explicit (r : Row) (h1 : explicitPercent r = none) :
    percent_from_row r = derivedPercent r := by
  rcases hpc : r.percent_complete with _ | v
  · simp [percent_from_row, hpc]
  · have hf : v.toFloat = none := by
      unfold explicitPercent at h1
      rw [hpc] at h1
      simpa using h1
    simp [percent_from_row, hpc, hf]

theorem explicitPercent_some (r : Row) (p : ℚ) (h : explicitPercent r = some p) :
    ∃ v, r.percent_complete = some v ∧ v.toFloat = some p := by
  unfold explicitPercent at h
  rcases hpc : r.percent_complete with _ | v
  · rw [hpc] at h
    exact absurd h (by simp)
  · rw [hpc] at h
    exact ⟨v, rfl, by simpa using h⟩

/-- C3 counterexample: the claim says the estimator's result is clamped to
[0,100] on every path, but a row with explicit `percent_complete = 150`
yields 150, outside the interval. -/
theorem percent_clamp_counterexample :
    percent_from_row rowExplicit150 = some 150 ∧ (100 : ℚ) < 150 := by
  constructor
  · rfl
  · norm_num

/-- C3 (amended): `percent_from_row` returns absent or a value; whenever the
value does not come verbatim from a parseable explicit `percent_complete`
field, it is clamped to [0,100].  (The explicit-field path returns the parsed
value unclamped.) -/
theorem percent_from_row_range (r : Row) (q : ℚ) (h : percent_from_row r = some q) :
    (∃ v, r.percent_complete = some v ∧ v.toFloat = some q) ∨ (0 ≤ q ∧ q ≤ 100) := by
  rcases hep : explicitPercent r with _ | p
  · rw [percent_from_row_of_no_explicit r hep] at h
    exact Or.inr (derivedPercent_bounds r q h)
  · obtain ⟨v, hv, hvf⟩ := explicitPercent_some r p hep
    rw [percent_from_row_of_explicit r v p hv hvf] at h
    obtain rfl : p = q := by injection h
    exact Or.inl ⟨v, hv, hvf⟩

theorem percent_from_row_range_witness :
    (∃ v, rowDerived50.percent_complete = some v ∧ v.toFloat = some 50) ∨
      ((0 : ℚ) ≤ 50 ∧ (50 : ℚ) ≤ 100) :=
  percent_from_row_range rowDerived50 50 (by
    norm_num [percent_from_row, derivedPercent, floatOfVal, durationField,
      rowDerived50, pymax, pymin])

/-- C4: a parseable explicit `percent_complete` field is returned exactly,
whatever the view_offset/duration fields hold (the derived branch is never
consulted). -/
theorem percent_from_row_explicit (r : Row) (v : PyVal) (q : ℚ)
    (h1 : r.percent_complete = some v) (h2 : v.toFloat = some q) :
    percent_from_row r = some q :=
  percent_from_row_of_explicit r v q h1 h2

theorem percent_from_row_explicit_witness :
    percent_from_row rowExplicit42 = some 42 :=
  percent_from_row_explicit rowExplicit42 ⟨true, some 42⟩ 42 rfl rfl

/-- C5: with no parseable explicit percent, a resolved duration that is
missing/non-numeric (`float` fails) or ≤ 0 yields absent (None), never 0;
in particular a row with no usable fields yields absent. -/
theorem percent_from_row_absent (r : Row)
    (h1 : explicitPercent r = none)
    (h2 : floatOfVal (durationField r) = none ∨
          ∃ d, floatOfVal (durationField r) = some d ∧ d ≤ 0) :
    percent_from_row r = none := by
  rw [percent_from_row_of_no_explicit r h1]
  rcases hoff : floatOfVal r.view_offset with _ | off
  · simp [derivedPercent, hoff]
  rcases h2 with hd | ⟨d, hd, hle⟩
  · simp [derivedPercent, hoff, hd]
  · simp [derivedPercent, hoff, hd, not_lt.mpr hle]

theorem percent_from_row_absent_witness :
    percent_from_row rowEmpty = none :=
  percent_from_row_absent rowEmpty rfl (Or.inl rfl)

theorem avgStage_seenWatched (r : Row) (b : SeriesBucket) :
    (avgStage r b).seenWatched = b.seenWatched := by
  rcases hp : percent_from_row r with _ | p <;> simp [avgStage, hp]

theorem avgStage_seenPartial (r : Row) (b : SeriesBucket) :
    (avgStage r b).seenPartial = b.seenPartial := by
  rcases hp : percent_from_row r with _ | p <;> simp [avgStage, hp]

theorem tsStage_seenWatched (r : Row) (b : SeriesBucket) :
    (tsStage r b).seenWatched = b.seenWatched := by
  unfold tsStage
  dsimp only
  split_ifs <;> rfl

theorem tsStage_seenPartial (r : Row) (b : SeriesBucket) :
    (tsStage r b).seenPartial = b.seenPartial := by
  unfold tsStage
  dsimp only
  split_ifs <;> rfl

theorem setStage_seenWatched (t : ℚ) (r : Row) (b : SeriesBucket) :
    (setStage t r b).seenWatched =
      if epKeyOf r ≠ "" ∧ isWatched t (percent_from_row r) = true
      then insert (epKeyOf r) b.seenWatched else b.seenWatched := by
  unfold setStage
  split_ifs <;> simp_all

theorem setStage_seenPartial (t : ℚ) (r : Row) (b : SeriesBucket) :
    (setStage t r b).seenPartial =
      if epKeyOf r ≠ "" ∧ isWatched t (percent_from_row r) = false ∧
          epKeyOf r ∉ b.seenWatched
      then insert (epKeyOf r) b.seenPartial else b.seenPartial := by
  unfold setStage
  split_ifs <;> simp_all

theorem updateBucket_seenWatched (t : ℚ) (r : Row) (b : SeriesBucket) :
    (updateBucket t r b).seenWatched =
      if epKeyOf r ≠ "" ∧ isWatched t (percent_from_row r) = true
      then insert (epKeyOf r) b.seenWatched else b.seenWatched := by
  rw [updateBucket, tsStage_seenWatched, setStage_seenWatched,
    avgStage_seenWatched]

theorem updateBucket_seenPartial (t : ℚ) (r : Row) (b : SeriesBucket) :
    (updateBucket t r b).seenPartial =
      if epKeyOf r ≠ "" ∧ isWatched t (percent_from_row r) = false ∧
          epKeyOf r ∉ b.seenWatched
      then insert (epKeyOf r) b.seenPartial else b.seenPartial := by
  rw [updateBucket, tsStage_seenPartial, setStage_seenPartial,
    avgStage_seenPartial, avgStage_seenWatched]

theorem seriesStep_apply_ne (t : ℚ) (m : String → Option SeriesBucket) (r : Row)
    (k : String) (h : k ≠ seriesKey r) : seriesStep t m r k = m k := by
  simp [seriesStep, h]

theorem seriesStep_apply_eq (t : ℚ) (m : String → Option SeriesBucket) (r : Row) :
    seriesStep t m r (seriesKey r) =
      some (updateBucket t r ((m (seriesKey r)).getD (initBucket r))) := by
  simp [seriesStep]

theorem getD_initBucket_seenWatched (m : String → Option SeriesBucket) (k : String)
    (r : Row) : ((m k).getD (initBucket r)).seenWatched = mapWatched m k := by
  rcases h : m k with _ | b <;> simp [mapWatched, h, initBucket]

theorem getD_initBucket_seenPartial (m : String → Option SeriesBucket) (k : String)
    (r : Row) : ((m k).getD (initBucket r)).seenPartial = mapPartial m k := by
  rcases h : m k with _ | b <;> simp [mapPartial, h, initBucket]

theorem mapWatched_step (t : ℚ) (m : String → Option SeriesBucket) (r : Row) (k : String) :
    mapWatched (seriesStep t m r) k =
      if seriesKey r = k ∧ epKeyOf r ≠ "" ∧ isWatched t (percent_from_row r) = true
      then insert (epKeyOf r) (mapWatched m k) else mapWatched m k := by
  by_cases hk : k = seriesKey r
  · subst hk
    have h1 : mapWatched (seriesStep t m r) (seriesKey r)
        = (updateBucket t r ((m (seriesKey r)).getD (initBucket r))).seenWatched := by
      unfold mapWatched
      rw [seriesStep_apply_eq]
      rfl
    rw [h1, updateBucket_seenWatched, getD_initBucket_seenWatched]
    by_cases he : epKeyOf r = "" <;>
      by_cases hw : isWatched t (percent_from_row r) = true <;> simp [he, hw]
  · have h1 : mapWatched (seriesStep t m r) k = mapWatched m k := by
      unfold mapWatched
      rw [seriesStep_apply_ne t m r k hk]
    have h2 : ¬(seriesKey r = k ∧ epKeyOf r ≠ "" ∧
        isWatched t (percent_from_row r) = true) := by
      intro hcon
      exact hk hcon.1.symm
    rw [h1, if_neg h2]

theorem mapPartial_step (t : ℚ) (m : String → Option SeriesBucket) (r : Row) (k : String) :
    mapPartial (seriesStep t m r) k =
      if seriesKey r = k ∧ epKeyOf r ≠ "" ∧ isWatched t (percent_from_row r) = false ∧
          epKeyOf r ∉ mapWatched m k
      then insert (epKeyOf r) (mapPartial m k) else mapPartial m k := by
  by_cases hk : k = seriesKey r
  · subst hk
    have h1 : mapPartial (seriesStep t m r) (seriesKey r)
        = (updateBucket t r ((m (seriesKey r)).getD (initBucket r))).seenPartial := by
      unfold mapPartial
      rw [seriesStep_apply_eq]
      rfl
    rw [h1, updateBucket_seenPartial, getD_initBucket_seenPartial,
      getD_initBucket_seenWatched]
    by_cases he : epKeyOf r = "" <;>
      by_cases hw : isWatched t (percent_from_row r) = true <;>
        by_cases hm : epKeyOf r ∈ mapWatched m (seriesKey r) <;> simp [he, hw, hm]
  · have h1 : mapPartial (seriesStep t m r) k = mapPartial m k := by
      unfold mapPartial
      rw [seriesStep_apply_ne t m r k hk]
    have h2 : ¬(seriesKey r = k ∧ epKeyOf r ≠ "" ∧
        isWatched t (percent_from_row r) = false ∧ epKeyOf r ∉ mapWatched m k) := by
      intro hcon
      exact hk hcon.1.symm
    rw [h1, if_neg h2]

theorem seriesFoldFrom_nil (t : ℚ) (m : String → Option SeriesBucket) :
    seriesFoldFrom t m [] = m := rfl

theorem seriesFoldFrom_cons (t : ℚ) (m : String → Option SeriesBucket) (r : Row)
    (L : List Row) :
    seriesFoldFrom t m (r :: L) = seriesFoldFrom t (seriesStep t m r) L := rfl

theorem seriesFoldFrom_append (t : ℚ) (m : String → Option SeriesBucket)
    (L1 L2 : List Row) :
    seriesFoldFrom t m (L1 ++ L2) = seriesFoldFrom t (seriesFoldFrom t m L1) L2 := by
  unfold seriesFoldFrom
  rw [List.foldl_append]

theorem mem_mapWatched_foldFrom (t : ℚ) (L : List Row) :
    ∀ (m : String → Option SeriesBucket) (k e : String),
      e ∈ mapWatched (seriesFoldFrom t m L) k ↔
        e ∈ mapWatched m k ∨
          ∃ r ∈ L, seriesKey r = k ∧ epKeyOf r = e ∧ e ≠ "" ∧
            isWatched t (percent_from_row r) = true := by
  induction L with
  | nil =>
    intro m k e
    simp [seriesFoldFrom_nil]
  | cons r L ih =>
    intro m k e
    rw [seriesFoldFrom_cons, ih, mapWatched_step]
    by_cases hc : seriesKey r = k ∧ epKeyOf r ≠ "" ∧
        isWatched t (percent_from_row r) = true
    · obtain ⟨h1, h2, h3⟩ := hc
      rw [if_pos ⟨h1, h2, h3⟩]
      simp only [Finset.mem_insert, List.exists_mem_cons_iff]
      constructor
      · rintro ((he | hm) | hex)
        · exact Or.inr (Or.inl ⟨h1, he.symm, fun hh => h2 (he.symm.trans hh), h3⟩)
        · exact Or.inl hm
        · exact Or.inr (Or.inr hex)
      · rintro (hm | ⟨hk2, he2, hne, hw2⟩ | hex)
        · exact Or.inl (Or.inr hm)
        · exact Or.inl (Or.inl he2.symm)
        · exact Or.inr hex
    · rw [if_neg hc]
      simp only [List.exists_mem_cons_iff]
      constructor
      · rintro (hm | hex)
        · exact Or.inl hm
        · exact Or.inr (Or.inr hex)
      · rintro (hm | ⟨hk2, he2, hne, hw2⟩ | hex)
        · exact Or.inl hm
        · exact absurd ⟨hk2, fun hh => hne (he2.symm.trans hh), hw2⟩ hc
        · exact Or.inr hex

theorem mapWatched_foldFrom_mono (t : ℚ) (L : List Row)
    (m : String → Option SeriesBucket) (k e : String)
    (h : e ∈ mapWatched m k) : e ∈ mapWatched (seriesFoldFrom t m L) k :=
  (mem_mapWatched_foldFrom t L m k e).mpr (Or.inl h)

theorem mapPartial_step_mono (t : ℚ) (m : String → Option SeriesBucket) (r : Row)
    (k e : String) (h : e ∈ mapPartial m k) :
    e ∈ mapPartial (seriesStep t m r) k := by
  rw [mapPartial_step]
  split_ifs with hc
  · exact Finset.mem_insert_of_mem h
  · exact h

theorem mapPartial_foldFrom_mono (t : ℚ) (L : List Row) :
    ∀ (m : String → Option SeriesBucket) (k e : String),
      e ∈ mapPartial m k → e ∈ mapPartial (seriesFoldFrom t m L) k := by
  induction L with
  | nil =>
    intro m k e h
    exact h
  | cons r L ih =>
    intro m k e h
    rw [seriesFoldFrom_cons]
    exact ih _ k e (mapPartial_step_mono t m r k e h)

theorem mapPartial_foldFrom_of_watched (t : ℚ) (L : List Row) :
    ∀ (m : String → Option SeriesBucket) (k e : String),
      e ∈ mapWatched m k →
      (e ∈ mapPartial (seriesFoldFrom t m L) k ↔ e ∈ mapPartial m k) := by
  induction L with
  | nil =>
    intro m k e _
    rw [seriesFoldFrom_nil]
  | cons r L ih =>
    intro m k e hw
    rw [seriesFoldFrom_cons]
    have hw2 : e ∈ mapWatched (seriesStep t m r) k := by
      rw [mapWatched_step]
      split_ifs with hc
      · exact Finset.mem_insert_of_mem hw
      · exact hw
    rw [ih _ k e hw2, mapPartial_step]
    split_ifs with hc
    · obtain ⟨h1, h2, h3, h4⟩ := hc
      rw [Finset.mem_insert]
      constructor
      · rintro (he | hm)
        · exact absurd (he ▸ hw) h4
        · exact hm
      · exact fun hm => Or.inr hm
    · exact Iff.rfl

theorem foldFrom_sets_of_closed (t : ℚ) (L : List Row) :
    ∀ m, ClosedState t m L →
      (∀ k, mapWatched (seriesFoldFrom t m L) k = mapWatched m k) ∧
      (∀ k, mapPartial (seriesFoldFrom t m L) k = mapPartial m k) := by
  induction L with
  | nil =>
    intro m _
    exact ⟨fun k => rfl, fun k => rfl⟩
  | cons r L ih =>
    intro m hcl
    have hr := hcl r (List.mem_cons_self r L)
    have hw : ∀ k, mapWatched (seriesStep t m r) k = mapWatched m k := by
      intro k
      rw [mapWatched_step]
      split_ifs with hc
      · obtain ⟨h1, h2, h3⟩ := hc
        have hin := (hr h2).1 h3
        rw [h1] at hin
        exact Finset.insert_eq_self.mpr hin
      · rfl
    have hp : ∀ k, mapPartial (seriesStep t m r) k = mapPartial m k := by
      intro k
      rw [mapPartial_step]
      split_ifs with hc
      · obtain ⟨h1, h2, h3, h4⟩ := hc
        rcases (hr h2).2 h3 with hin | hin
        · rw [h1] at hin
          exact absurd hin h4
        · rw [h1] at hin
          exact Finset.insert_eq_self.mpr hin
      · rfl
    have hcl2 : ClosedState t (seriesStep t m r) L := by
      intro r2 hr2 hne
      have hprev := hcl r2 (List.mem_cons_of_mem r hr2) hne
      constructor
      · intro hw2
        rw [hw (seriesKey r2)]
        exact hprev.1 hw2
      · intro hnw
        rw [hw (seriesKey r2), hp (seriesKey r2)]
        exact hprev.2 hnw
    obtain ⟨ihw, ihp⟩ := ih (seriesStep t m r) hcl2
    rw [seriesFoldFrom_cons]
    exact ⟨fun k => (ihw k).trans (hw k), fun k => (ihp k).trans (hp k)⟩

theorem closedState_seriesFold (t : ℚ) (L : List Row) :
    ClosedState t (seriesFold t L) L := by
  intro r hr hne
  obtain ⟨L1, L2, rfl⟩ := List.append_of_mem hr
  have h2 : seriesFold t (L1 ++ r :: L2) =
      seriesFoldFrom t (seriesStep t (seriesFoldFrom t (fun _ => none) L1) r) L2 := by
    unfold seriesFold
    rw [seriesFoldFrom_append, seriesFoldFrom_cons]
  constructor
  · intro hwt
    rw [h2]
    have h1 : epKeyOf r ∈ mapWatched
        (seriesStep t (seriesFoldFrom t (fun _ => none) L1) r) (seriesKey r) := by
      rw [mapWatched_step, if_pos ⟨rfl, hne, hwt⟩]
      exact Finset.mem_insert_self _ _
    exact mapWatched_foldFrom_mono t L2 _ _ _ h1
  · intro hnw
    rw [h2]
    by_cases hin : epKeyOf r ∈ mapWatched
        (seriesFoldFrom t (fun _ => none) L1) (seriesKey r)
    · left
      have h1 : epKeyOf r ∈ mapWatched
          (seriesStep t (seriesFoldFrom t (fun _ => none) L1) r) (seriesKey r) := by
        rw [mapWatched_step]
        split_ifs with hc
        · exact Finset.mem_insert_of_mem hin
        · exact hin
      exact mapWatched_foldFrom_mono t L2 _ _ _ h1
    · right
      have h1 : epKeyOf r ∈ mapPartial
          (seriesStep t (seriesFoldFrom t (fun _ => none) L1) r) (seriesKey r) := by
        rw [mapPartial_step, if_pos ⟨rfl, hne, hnw, hin⟩]
        exact Finset.mem_insert_self _ _
      exact mapPartial_foldFrom_mono t L2 _ _ _ h1

theorem isSome_seriesFoldFrom (t : ℚ) (L : List Row) :
    ∀ (m : String → Option SeriesBucket) (k : String),
      (seriesFoldFrom t m L k).isSome = true ↔
        (m k).isSome = true ∨ ∃ r ∈ L, seriesKey r = k := by
  induction L with
  | nil =>
    intro m k
    simp [seriesFoldFrom_nil]
  | cons r L ih =>
    intro m k
    rw [seriesFoldFrom_cons, ih]
    have hstep : (seriesStep t m r k).isSome = true ↔
        (k = seriesKey r ∨ (m k).isSome = true) := by
      by_cases hk : k = seriesKey r
      · subst hk
        rw [seriesStep_apply_eq]
        simp
      · rw [seriesStep_apply_ne t m r k hk]
        simp [hk]
    rw [hstep]
    simp only [List.exists_mem_cons_iff]
    constructor
    · rintro ((hk | hm) | hex)
      · exact Or.inr (Or.inl hk.symm)
      · exact Or.inl hm
      · exact Or.inr (Or.inr hex)
    · rintro (hm | hk | hex)
      · exact Or.inl (Or.inr hm)
      · exact Or.inl (Or.inl hk.symm)
      · exact Or.inr hex

theorem pyRound2_intValue (x : ℚ) (n : ℤ) (h : x * 100 = (n : ℚ)) :
    pyRound2 x = (n : ℚ) / 100 := by
  unfold pyRound2 roundHalfEven
  rw [h, Int.floor_intCast]
  norm_num

/-- C1 counterexample: with events `[A at 40%, A at 95%]` for show key "1"
(threshold 85), episode "A" ends in both the watched-set and the partial-set
(they are not disjoint), while the reversed order leaves the partial-set
empty (final membership depends on the order of events). -/
theorem series_sets_counterexample :
    ("A" ∈ mapWatched (seriesFold 85 [epA40, epA95]) "1" ∧
     "A" ∈ mapPartial (seriesFold 85 [epA40, epA95]) "1") ∧
    mapPartial (seriesFold 85 [epA95, epA40]) "1" = ∅ := by
  have h1 : (85 : ℚ) ≤ 95 := by norm_num
  have h2 : ¬((85 : ℚ) ≤ 40) := by norm_num
  simp [seriesFold, seriesFoldFrom, List.foldl, seriesStep, updateBucket,
    avgStage, setStage, tsStage, initBucket, seriesKey, seriesTitle,
    firstNonEmpty, strOr, epKeyOf, rowTs, percent_from_row, isWatched,
    epA40, epA95, mapWatched, mapPartial, h1, h2]

/-- C1 (corrected): an episode key is in a show's watched-set iff some event
of the list put it there (hence watched-set membership is order-independent),
and once it is in the watched-set, further events never change whether it is
in the partial-set — in particular it never moves to partial later.  The two
sets are however NOT disjoint in general: a below-threshold event that
precedes the first watched event of the same episode leaves the episode in
both sets, and partial-set membership depends on event order
(see the counterexample). -/
theorem series_watched_char_and_stability (t : ℚ) (L : List Row) (k e : String) :
    (e ∈ mapWatched (seriesFold t L) k ↔
      ∃ r ∈ L, seriesKey r = k ∧ epKeyOf r = e ∧ e ≠ "" ∧
        isWatched t (percent_from_row r) = true) ∧
    (∀ L2, e ∈ mapWatched (seriesFold t L) k →
      (e ∈ mapPartial (seriesFold t (L ++ L2)) k ↔
        e ∈ mapPartial (seriesFold t L) k)) := by
  constructor
  · have h := mem_mapWatched_foldFrom t L (fun _ => none) k e
    unfold seriesFold
    rw [h]
    simp [mapWatched]
  · intro L2 hw
    unfold seriesFold at hw ⊢
    rw [seriesFoldFrom_append]
    exact mapPartial_foldFrom_of_watched t L2 _ k e hw

theorem series_watched_char_and_stability_witness :
    "A" ∈ mapPartial (seriesFold 85 ([epA40, epA95] ++ [epA40])) "1" ↔
      "A" ∈ mapPartial (seriesFold 85 [epA40, epA95]) "1" :=
  (series_watched_char_and_stability 85 [epA40, epA95] "1" "A").2 [epA40]
    ((series_watched_char_and_stability 85 [epA40, epA95] "1" "A").1.mpr
      ⟨epA95, by simp, by simp [seriesKey, strOr, epA95], rfl, by simp,
        by norm_num [isWatched, percent_from_row, epA95]⟩)

/-- C2: the claim says absent-percent events do not perturb the running
average and that the finalized `avg_episode_percent` is order-independent,
equal to the mean of the parseable percents.  The code increments
`_plays_count` for every event, absent percent or not, so a later percent
update is weighted by the inflated count: for `[absent, 100%]` the final
average is 50.0 (the claim demands 100.0), while the reversed order
`[100%, absent]` gives 100.0 — the average is perturbed and order-dependent. -/
theorem series_avg_absent_perturbs :
    (aggregate_series 85 [epAbsent, ep100] "1").map SeriesRow.avg_episode_percent
      = some 50 ∧
    (aggregate_series 85 [ep100, epAbsent] "1").map SeriesRow.avg_episode_percent
      = some 100 := by
  have h1 : (85 : ℚ) ≤ 100 := by norm_num
  have hp50 : pyRound2 50 = 50 := by
    rw [pyRound2_intValue 50 5000 (by norm_num)]
    norm_num
  have hp100 : pyRound2 100 = 100 := by
    rw [pyRound2_intValue 100 10000 (by norm_num)]
    norm_num
  simp [aggregate_series, seriesFold, seriesFoldFrom, List.foldl, seriesStep,
    updateBucket, avgStage, setStage, tsStage, initBucket, seriesKey,
    seriesTitle, firstNonEmpty, strOr, epKeyOf, rowTs, percent_from_row,
    derivedPercent, floatOfVal, durationField,
    isWatched, epAbsent, ep100, finalizeSeriesBucket, h1]
  norm_num [hp50, hp100]

/-- C6: aggregating `L ++ L` yields, for every show bucket, the same
`unique_episodes_watched` and the same `episodes_partial` as aggregating `L`
once (set-union semantics of deduplication); nothing is asserted about
`avg_episode_percent`, which is a mean over play count. -/
theorem aggregate_series_idempotent_counts (t : ℚ) (L : List Row) (k : String) :
    (aggregate_series t (L ++ L) k).map SeriesRow.unique_episodes_watched =
      (aggregate_series t L k).map SeriesRow.unique_episodes_watched ∧
    (aggregate_series t (L ++ L) k).map SeriesRow.episodesPartial =
      (aggregate_series t L k).map SeriesRow.episodesPartial := by
  have hfold : seriesFold t (L ++ L) = seriesFoldFrom t (seriesFold t L) L := by
    unfold seriesFold
    rw [seriesFoldFrom_append]
  obtain ⟨hw, hp⟩ :=
    foldFrom_sets_of_closed t L (seriesFold t L) (closedState_seriesFold t L)
  rcases h1 : seriesFold t L k with _ | b
  · have hnone : ¬((seriesFold t L k).isSome = true) := by
      rw [h1]
      simp
    have hnone2 : ¬((seriesFold t (L ++ L) k).isSome = true) := by
      rw [hfold, isSome_seriesFoldFrom]
      rintro (hs | ⟨r, hr, hk⟩)
      · exact hnone hs
      · apply hnone
        unfold seriesFold
        rw [isSome_seriesFoldFrom]
        exact Or.inr ⟨r, hr, hk⟩
    rcases h3 : seriesFold t (L ++ L) k with _ | b2
    · rw [aggregate_series, aggregate_series, h1, h3]
      exact ⟨rfl, rfl⟩
    · rw [h3] at hnone2
      simp at hnone2
  · rcases h3 : seriesFold t (L ++ L) k with _ | b2
    · have hsome : (seriesFold t (L ++ L) k).isSome = true := by
        rw [hfold, isSome_seriesFoldFrom]
        left
        rw [h1]
        rfl
      rw [h3] at hsome
      simp at hsome
    · have hwk : b2.seenWatched = b.seenWatched := by
        have h4 := hw k
        rw [← hfold] at h4
        unfold mapWatched at h4
        rw [h3, h1] at h4
        simpa using h4
      have hpk : b2.seenPartial = b.seenPartial := by
        have h4 := hp k
        rw [← hfold] at h4
        unfold mapPartial at h4
        rw [h3, h1] at h4
        simpa using h4
      rw [aggregate_series, aggregate_series, h1, h3]
      simp [finalizeSeriesBucket, hwk, hpk]

theorem avgStage_playsCount (r : Row) (b : SeriesBucket) :
    (avgStage r b).playsCount = b.playsCount + 1 := by
  rcases hp : percent_from_row r with _ | p <;> simp [avgStage, hp]

theorem avgStage_avg (r : Row) (b : SeriesBucket) :
    (avgStage r b).avgEpisodePercent =
      (match percent_from_row r with
       | some p => (b.avgEpisodePercent * b.playsCount + p) / (b.playsCount + 1)
       | none => b.avgEpisodePercent) := by
  rcases hp : percent_from_row r with _ | p <;> simp [avgStage, hp]

theorem avgStage_first (r : Row) (b : SeriesBucket) :
    (avgStage r b).first_watched = b.first_watched := by
  rcases hp : percent_from_row r with _ | p <;> simp [avgStage, hp]

theorem avgStage_last (r : Row) (b : SeriesBucket) :
    (avgStage r b).last_watched = b.last_watched := by
  rcases hp : percent_from_row r with _ | p <;> simp [avgStage, hp]

theorem setStage_keyless (t : ℚ) (r : Row) (b : SeriesBucket)
    (h : epKeyOf r = "") : setStage t r b = b := by
  simp [setStage, h]

theorem tsStage_playsCount (r : Row) (b : SeriesBucket) :
    (tsStage r b).playsCount = b.playsCount := by
  unfold tsStage
  dsimp only
  split_ifs <;> rfl

theorem tsStage_avg (r : Row) (b : SeriesBucket) :
    (tsStage r b).avgEpisodePercent = b.avgEpisodePercent := by
  unfold tsStage
  dsimp only
  split_ifs <;> rfl

theorem tsStage_first (r : Row) (b : SeriesBucket) :
    (tsStage r b).first_watched =
      if rowTs r ≠ "" ∧ (b.first_watched = "" ∨ rowTs r < b.first_watched)
      then rowTs r else b.first_watched := by
  unfold tsStage
  dsimp only
  by_cases h0 : rowTs r = ""
  · simp [h0]
  · rw [if_neg h0]
    by_cases h1 : b.first_watched = "" ∨ rowTs r < b.first_watched
    · rw [if_pos h1]
      dsimp only
      split_ifs <;> first | rfl | tauto
    · rw [if_neg h1]
      split_ifs <;> first | rfl | tauto

theorem tsStage_last (r : Row) (b : SeriesBucket) :
    (tsStage r b).last_watched =
      if rowTs r ≠ "" ∧ (b.last_watched = "" ∨ b.last_watched < rowTs r)
      then rowTs r else b.last_watched := by
  unfold tsStage
  dsimp only
  by_cases h0 : rowTs r = ""
  · simp [h0]
  · rw [if_neg h0]
    by_cases h1 : b.first_watched = "" ∨ rowTs r < b.first_watched
    · rw [if_pos h1]
      dsimp only
      split_ifs <;> first | rfl | tauto
    · rw [if_neg h1]
      split_ifs <;> first | rfl | tauto

/-- C9: an episode event whose `rating_key` is missing or empty is counted
toward neither the watched-set nor the partial-set of its show bucket, yet it
still increments `_plays_count`, participates in the running percent average,
and participates in the first/last-watched timestamps. -/
theorem series_keyless_event (t : ℚ) (m : String → Option SeriesBucket)
    (r : Row) (h : epKeyOf r = "") :
    seriesStep t m r (seriesKey r) =
      some (updateBucket t r ((m (seriesKey r)).getD (initBucket r))) ∧
    ∀ b0 : SeriesBucket,
      (updateBucket t r b0).seenWatched = b0.seenWatched ∧
      (updateBucket t r b0).seenPartial = b0.seenPartial ∧
      (updateBucket t r b0).playsCount = b0.playsCount + 1 ∧
      (updateBucket t r b0).avgEpisodePercent =
        (match percent_from_row r with
         | some p =>
           (b0.avgEpisodePercent * b0.playsCount + p) / (b0.playsCount + 1)
         | none => b0.avgEpisodePercent) ∧
      (updateBucket t r b0).first_watched =
        (if rowTs r ≠ "" ∧
            (b0.first_watched = "" ∨ rowTs r < b0.first_watched)
         then rowTs r else b0.first_watched) ∧
      (updateBucket t r b0).last_watched =
        (if rowTs r ≠ "" ∧
            (b0.last_watched = "" ∨ b0.last_watched < rowTs r)
         then rowTs r else b0.last_watched) := by
  refine ⟨seriesStep_apply_eq t m r, fun b0 => ?_⟩
  unfold updateBucket
  rw [setStage_keyless t r _ h]
  refine ⟨?_, ?_, ?_, ?_, ?_, ?_⟩
  · rw [tsStage_seenWatched, avgStage_seenWatched]
  · rw [tsStage_seenPartial, avgStage_seenPartial]
  · rw [tsStage_playsCount, avgStage_playsCount]
  · rw [tsStage_avg, avgStage_avg]
  · rw [tsStage_first, avgStage_first]
  · rw [tsStage_last, avgStage_last]

theorem series_keyless_event_witness :
    (updateBucket 85 epNoKey (initBucket epNoKey)).seenWatched =
      (initBucket epNoKey).seenWatched ∧
    (updateBucket 85 epNoKey (initBucket epNoKey)).playsCount =
      (initBucket epNoKey).playsCount + 1 :=
  ⟨((series_keyless_event 85 (fun _ => none) epNoKey rfl).2
      (initBucket epNoKey)).1,
   ((series_keyless_event 85 (fun _ => none) epNoKey rfl).2
      (initBucket epNoKey)).2.2.1⟩

theorem movieStep_apply_eq (t : ℚ) (m : String → Option MovieBucket) (r : Row) :
    movieStep t m r (movieKey r) =
      some (updateMovieBucket t r ((m (movieKey r)).getD (initMovieBucket r))) := by
  simp [movieStep]

theorem movieFoldFrom_cons (t : ℚ) (m : String → Option MovieBucket) (r : Row)
    (L : List Row) :
    movieFoldFrom t m (r :: L) = movieFoldFrom t (movieStep t m r) L := rfl

theorem updateMovieBucket_absent (t : ℚ) (r : Row) (b : MovieBucket)
    (h : percent_from_row r = none) :
    (updateMovieBucket t r b).plays = b.plays + 1 ∧
    (updateMovieBucket t r b).max_percent = b.max_percent ∧
    (updateMovieBucket t r b).avg_percent = b.avg_percent ∧
    (updateMovieBucket t r b).last_percent = b.last_percent ∧
    (updateMovieBucket t r b).completed_any = true := by
  unfold updateMovieBucket
  rw [h]
  simp only [isWatched]
  split_ifs <;> simp_all

theorem movieFoldFrom_absent (t : ℚ) (L : List Row) :
    ∀ (m : String → Option MovieBucket) (k : String) (b0 : MovieBucket),
      (∀ r ∈ L, movieKey r = k ∧ percent_from_row r = none) →
      m k = some b0 → b0.max_percent = 0 → b0.avg_percent = 0 →
      b0.last_percent = none → b0.completed_any = true →
      ∃ b, movieFoldFrom t m L k = some b ∧
        b.plays = b0.plays + L.length ∧ b.max_percent = 0 ∧
        b.avg_percent = 0 ∧ b.last_percent = none ∧ b.completed_any = true := by
  induction L with
  | nil =>
    intro m k b0 _ hm h1 h2 h3 h4
    exact ⟨b0, hm, by simp, h1, h2, h3, h4⟩
  | cons r L ih =>
    intro m k b0 hall hm h1 h2 h3 h4
    obtain ⟨hk, hp⟩ := hall r (List.mem_cons_self r L)
    have hstep : movieStep t m r k = some (updateMovieBucket t r b0) := by
      subst hk
      rw [movieStep_apply_eq, hm]
      rfl
    obtain ⟨hpl, hmx, hav, hls, hcp⟩ := updateMovieBucket_absent t r b0 hp
    obtain ⟨b, hb, hbpl, hbmx, hbav, hbls, hbcp⟩ :=
      ih (movieStep t m r) k (updateMovieBucket t r b0)
        (fun r2 hr2 => hall r2 (List.mem_cons_of_mem r hr2)) hstep
        (hmx.trans h1) (hav.trans h2) (hls.trans h3) hcp
    refine ⟨b, ?_, ?_, hbmx, hbav, hbls, hbcp⟩
    · rw [movieFoldFrom_cons]
      exact hb
    · rw [hbpl, hpl, List.length_cons]
      omega

/-- C10: for a movie bucket all of whose events carry an absent percent,
every event still counts as a play and `completed_any` becomes true through
the optimistic watched rule, while the finalized row reports
`max_percent = 0.0` and `avg_percent = 0.0` (values, not absence) and
`last_percent` stays absent (None). -/
theorem aggregate_movies_all_absent (t : ℚ) (L : List Row) (k : String)
    (hne : L ≠ [])
    (hall : ∀ r ∈ L, movieKey r = k ∧ percent_from_row r = none) :
    ∃ b, aggregate_movies t L k = some b ∧
      b.plays = L.length ∧ b.completed_any = true ∧
      b.max_percent = 0 ∧ b.avg_percent = 0 ∧ b.last_percent = none := by
  have hp0round : pyRound2 0 = 0 := by
    rw [pyRound2_intValue 0 0 (by norm_num)]
    norm_num
  rcases L with _ | ⟨r0, rest⟩
  · exact absurd rfl hne
  obtain ⟨hk0, hp0⟩ := hall r0 (List.mem_cons_self r0 rest)
  have hstep : movieStep t (fun _ => none) r0 k =
      some (updateMovieBucket t r0 (initMovieBucket r0)) := by
    subst hk0
    rw [movieStep_apply_eq]
    rfl
  obtain ⟨hpl, hmx, hav, hls, hcp⟩ :=
    updateMovieBucket_absent t r0 (initMovieBucket r0) hp0
  obtain ⟨b, hb, hbpl, hbmx, hbav, hbls, hbcp⟩ :=
    movieFoldFrom_absent t rest (movieStep t (fun _ => none) r0) k
      (updateMovieBucket t r0 (initMovieBucket r0))
      (fun r2 hr2 => hall r2 (List.mem_cons_of_mem r0 hr2)) hstep
      (hmx.trans (by simp [initMovieBucket]))
      (hav.trans (by simp [initMovieBucket]))
      (hls.trans (by simp [initMovieBucket])) hcp
  refine ⟨finalizeMovieBucket b, ?_, ?_, ?_, ?_, ?_, ?_⟩
  · unfold aggregate_movies movieFold
    rw [movieFoldFrom_cons, hb]
    rfl
  · have : (updateMovieBucket t r0 (initMovieBucket r0)).plays = 1 := by
      rw [hpl]
      simp [initMovieBucket]
    rw [finalizeMovieBucket]
    rw [hbpl, this, List.length_cons]
    omega
  · simp [finalizeMovieBucket, hbcp]
  · simp [finalizeMovieBucket, hbmx, hp0round]
  · simp [finalizeMovieBucket, hbav, hp0round]
  · simp [finalizeMovieBucket, hbls]

theorem aggregate_movies_all_absent_witness :
    ∃ b, aggregate_movies 85 [movAbsent, movAbsent2] "m1" = some b ∧
      b.plays = [movAbsent, movAbsent2].length ∧ b.completed_any = true ∧
      b.max_percent = 0 ∧ b.avg_percent = 0 ∧ b.last_percent = none :=
  aggregate_movies_all_absent 85 [movAbsent, movAbsent2] "m1" (by simp)
    (by
      intro r hr
      rcases List.mem_cons.mp hr with rfl | hr2
      · exact ⟨rfl, rfl⟩
      · rcases List.mem_cons.mp hr2 with rfl | hr3
        · exact ⟨rfl, rfl⟩
        · exact absurd hr3 (List.not_mem_nil r))

theorem seasonAdd_cons (episodes : String → Except Unit SeasonChildren)
    (u : Season) (rest : List Season) (acc : ℤ) :
    seasonAdd episodes (u :: rest) acc =
      if strOr u.key = "" then seasonAdd episodes rest acc
      else
        match episodes (strOr u.key) with
        | .error _ => acc
        | .ok sc =>
          match childrenCount sc with
          | .error _ => acc
          | .ok n => seasonAdd episodes rest (acc + n) := rfl

theorem seasonAdd_abort (episodes : String → Except Unit SeasonChildren)
    (s : Season) (post : List Season) (acc : ℤ)
    (hs : strOr s.key ≠ "") (hn : seasonCount episodes s = none) :
    seasonAdd episodes (s :: post) acc = acc := by
  unfold seasonCount at hn
  rw [if_neg hs] at hn
  rw [seasonAdd_cons, if_neg hs]
  rcases he : episodes (strOr s.key) with u | sc
  · rfl
  · rw [he] at hn
    dsimp only at hn ⊢
    rcases hc : childrenCount sc with u | n
    · rfl
    · rw [hc] at hn
      simp at hn

theorem seasonAdd_cons_ok (episodes : String → Except Unit SeasonChildren)
    (u : Season) (rest : List Season) (acc n : ℤ)
    (hn : seasonCount episodes u = some n) :
    seasonAdd episodes (u :: rest) acc = seasonAdd episodes rest (acc + n) := by
  unfold seasonCount at hn
  by_cases hk : strOr u.key = ""
  · rw [if_pos hk] at hn
    exact absurd hn (by simp)
  · rw [if_neg hk] at hn
    rw [seasonAdd_cons, if_neg hk]
    rcases he : episodes (strOr u.key) with v | sc
    · rw [he] at hn
      simp at hn
    · rw [he] at hn
      dsimp only at hn ⊢
      rcases hc : childrenCount sc with v | m
      · rw [hc] at hn
        simp at hn
      · rw [hc] at hn
        obtain rfl : m = n := by simpa using hn
        rfl

theorem seasonAdd_cons_skip (episodes : String → Except Unit SeasonChildren)
    (u : Season) (rest : List Season) (acc : ℤ) (hk : strOr u.key = "") :
    seasonAdd episodes (u :: rest) acc = seasonAdd episodes rest acc := by
  rw [seasonAdd_cons, if_pos hk]

theorem seasonAdd_partial_sum (episodes : String → Except Unit SeasonChildren)
    (pre : List Season) :
    ∀ (s : Season) (post : List Season) (acc : ℤ),
      (∀ u ∈ pre, strOr u.key = "" ∨ (seasonCount episodes u).isSome = true) →
      strOr s.key ≠ "" → seasonCount episodes s = none →
      seasonAdd episodes (pre ++ s :: post) acc =
        acc + (pre.filterMap (seasonCount episodes)).sum := by
  induction pre with
  | nil =>
    intro s post acc _ hs hn
    simp only [List.nil_append, List.filterMap_nil, List.sum_nil, add_zero]
    exact seasonAdd_abort episodes s post acc hs hn
  | cons u pre ih =>
    intro s post acc hpre hs hn
    have hrest : ∀ v ∈ pre, strOr v.key = "" ∨
        (seasonCount episodes v).isSome = true :=
      fun v hv => hpre v (List.mem_cons_of_mem u hv)
    rcases hpre u (List.mem_cons_self u pre) with hk | hsome
    · have hcu : seasonCount episodes u = none := by
        unfold seasonCount
        rw [if_pos hk]
      rw [List.cons_append, seasonAdd_cons_skip episodes u _ acc hk,
        ih s post acc hrest hs hn, List.filterMap_cons, hcu]
    · obtain ⟨n, hn2⟩ := Option.isSome_iff_exists.mp hsome
      rw [List.cons_append, seasonAdd_cons_ok episodes u _ acc n hn2,
        ih s post (acc + n) hrest hs hn, List.filterMap_cons, hn2]
      rw [List.sum_cons]
      ring

/-- C7: `count_available_episodes` never raises (in the model it is a total
function into ℤ); when the fast metadata path yields no count and the
season-by-season fallback hits an error partway through, the function
returns the partial sum accumulated over the seasons already processed —
not zero, not a raised error — and that sum is ≥ 0 whenever the individual
season counts are. -/
theorem count_available_episodes_partial_sum (ora : AvailOracle)
    (pre post : List Season) (s : Season)
    (hfast : fastCount ora.metadata = none)
    (hseasons : ora.seasons = .ok (pre ++ s :: post))
    (hpre : ∀ u ∈ pre, strOr u.key = "" ∨
      (seasonCount ora.episodes u).isSome = true)
    (hs : strOr s.key ≠ "")
    (habort : seasonCount ora.episodes s = none) :
    count_available_episodes ora =
      (pre.filterMap (seasonCount ora.episodes)).sum ∧
    ((∀ n ∈ pre.filterMap (seasonCount ora.episodes), 0 ≤ n) →
      0 ≤ count_available_episodes ora) := by
  have hmain : count_available_episodes ora =
      (pre.filterMap (seasonCount ora.episodes)).sum := by
    unfold count_available_episodes
    rw [hfast, hseasons]
    dsimp only
    rw [seasonAdd_partial_sum ora.episodes pre s post 0 hpre hs habort]
    ring
  refine ⟨hmain, fun hnn => ?_⟩
  rw [hmain]
  exact List.sum_nonneg hnn

theorem count_available_episodes_partial_sum_witness :
    count_available_episodes oracleErrAtS2 = 5 := by
  have h := count_available_episodes_partial_sum oracleErrAtS2
    [⟨some "s1"⟩] [⟨some "s3"⟩] ⟨some "s2"⟩ rfl rfl (by decide) (by decide)
    (by decide)
  rw [h.1]
  decide

/-- C8: in the per-row availability finalization, a resolved count of 0
leaves `percent_watched_show` empty (absence, not 0 and not an error), and a
nonzero (hence positive) count yields
`round(unique_episodes_watched / available_episodes * 100, 2)`. -/
theorem applyAvailable_spec (row : SeriesRow) (avail : ℤ) (hnn : 0 ≤ avail) :
    (applyAvailable avail row).available_episodes = avail ∧
    (avail = 0 → (applyAvailable avail row).percent_watched_show = none) ∧
    (avail ≠ 0 → (applyAvailable avail row).percent_watched_show =
      some (pyRound2 ((row.unique_episodes_watched : ℚ) / (avail : ℚ) * 100))) := by
  refine ⟨rfl, ?_, ?_⟩
  · intro h0
    subst h0
    simp [applyAvailable]
  · intro hne
    have hpos : 0 < avail := lt_of_le_of_ne hnn (Ne.symm hne)
    simp [applyAvailable, hpos]

theorem applyAvailable_spec_witness :
    (applyAvailable 4 rowShow24).percent_watched_show = some 50 := by
  have h := (applyAvailable_spec rowShow24 4 (by norm_num)).2.2 (by norm_num)
  rw [h]
  have h2 : ((rowShow24.unique_episodes_watched : ℕ) : ℚ) / ((4 : ℤ) : ℚ) * 100
      = 50 := by
    norm_num [rowShow24]
  rw [h2, pyRound2_intValue 50 5000 (by norm_num)]
  norm_num
